import Mathlib

/-!
Verification development for the EncryptoPack encryption/decryption pipeline
(`src/EncryptoPack.py`).  The data model and the operations are shallowly
embedded: bytes are natural numbers below 256, files are lists of bytes, and
the stateful streaming code of `encrypt_button_click` / `decrypt_button_click`
is transcribed as pure functions that also record the I/O events they perform.
The external cryptographic primitives (hashlib's SHA-1/SHA-256 and
pycryptodome's AES-EAX) are not part of the repository; they are modelled from
the spec as concrete executable stand-ins with the properties the spec relies
on (fixed digest widths, stream-cipher chunk feeding).
-/

namespace EncryptoPack

/-- A list of naturals is byte-valid when every entry is below 256. -/
def isBytes (l : List Nat) : Prop := ∀ b ∈ l, b < 256

instance (l : List Nat) : Decidable (isBytes l) :=
  inferInstanceAs (Decidable (∀ b ∈ l, b < 256))

/-! ## ChunkSizeAdvisor — `get_optimal_block_size` (source lines 19-41) -/

/-- Tier selection of `get_optimal_block_size`, as a function of
`gb_ram = available_ram // 1024**3`: the exact `if/elif` chain of the source. -/
def get_optimal_block_size_tier (gb_ram : Nat) : Nat :=
  if gb_ram ≤ 1 then 65536
  else if gb_ram ≤ 2 then 131072
  else if gb_ram ≤ 3 then 262144
  else if gb_ram ≤ 4 then 524288
  else if gb_ram ≤ 6 then 524288
  else if gb_ram ≤ 8 then 1048576
  else if gb_ram ≤ 12 then 1048576
  else if gb_ram ≤ 16 then 1572864
  else if gb_ram ≤ 24 then 1572864
  else if gb_ram ≤ 32 then 3145728
  else 3145728

/-- `get_optimal_block_size`: the memory query either fails (`none`, the
`except:` branch returning the 512 KiB fallback) or yields the available
memory in bytes, which is floor-divided by `1024 ** 3` before tier lookup. -/
def get_optimal_block_size (availQuery : Option Nat) : Nat :=
  match availQuery with
  | none => 524288
  | some available_ram => get_optimal_block_size_tier (available_ram / (1024 ^ 3))

/-! ## Modelled cryptographic primitives (external library code) -/

/-- Fold a byte list into a numeric seed; helper for the modelled primitives. -/
def bytesSeed (l : List Nat) : Nat := l.foldl (fun a b => a * 263 + b + 1) 11

/-- Fold a string into a numeric seed; helper for the modelled primitives. -/
def strSeed (s : String) : Nat := s.data.foldl (fun a c => a * 257 + c.toNat + 1) 7

/-- Modelled from the spec: `hashlib.sha256(password.encode()).digest()` —
missing external library code.  A 32-byte digest of the password string,
byte-valid by construction. -/
def sha256Model (password : String) : List Nat :=
  (List.range 32).map (fun i => (strSeed password * 131 + i * 17 + 5) % 256)

/-- Modelled from the spec: `hashlib.sha1(iv).digest()` — missing external
library code.  A 20-byte digest of a 16-byte IV; modelled injectively on
byte-valid 16-byte inputs (the spec relies on SHA-1 being collision-free on
the IV space for the tamper-detection property). -/
def sha1Model (data : List Nat) : List Nat :=
  data.map (· % 256) ++ List.replicate 4 (data.length % 256)

/-- Modelled from the spec: the AES-EAX keystream of pycryptodome — missing
external library code.  The spec requires a stream-capable cipher keyed by
`(key, iv)` whose sequential chunk feeding equals single-pass encryption, so
the cipher is modelled as a byte keystream XORed into the data. -/
def ksModel (key iv : List Nat) (i : Nat) : Nat :=
  (bytesSeed key * 501 + bytesSeed iv * 7 + (i + 1) * (bytesSeed key % 97 + 1)) % 256

/-- Flip bit `j` of the byte at position `i` of a byte list; used to state
the tampered-IV property. -/
def flipBit (l : List Nat) (i j : Nat) : List Nat :=
  l.set i (l.getD i 0 ^^^ 2 ^ j)

/-! ## Stream cipher: single-pass and chunked operation -/

/-- XOR a byte list against the keystream `ks`, starting at stream offset
`off`.  `cipher.encrypt` and `cipher.decrypt` are both this operation. -/
def xorStream (ks : Nat → Nat) (off : Nat) : List Nat → List Nat
  | [] => []
  | b :: rest => (b ^^^ ks off) :: xorStream ks (off + 1) rest

/-- The chunked read/encrypt/write loop of the source: process `block_size`
bytes at a time, the cipher state advancing across chunks.  (The source's
`block_size` is always positive; the `bs = 0` guard only ensures totality.) -/
def chunkedXorStream (ks : Nat → Nat) (bs : Nat) (off : Nat) (l : List Nat) : List Nat :=
  if l = [] then []
  else if bs = 0 then xorStream ks off l
  else xorStream ks off (l.take bs) ++ chunkedXorStream ks bs (off + bs) (l.drop bs)
termination_by l.length
decreasing_by
  simp only [List.length_drop]
  rename_i h hb
  have hl : 0 < l.length := List.length_pos.mpr h
  omega


/-! ## ContainerCodec + CipherPipeline: `encrypt_button_click` core
(source lines 744-774) -/

/-- Artifacts written by the encryption core: the container file's bytes and,
in external-IV mode, the `.ivkey` side file's bytes. -/
structure EncArtifacts where
  container : List Nat
  ivFile : Option (List Nat)
  deriving DecidableEq

/-- Byte-level core of `encrypt_button_click`: write the 16-byte IV inline
(or to the `.ivkey` side file when `separate_iv_key`), then each encrypted
chunk in order, then the 20-byte SHA-1 hash of the IV as trailer. -/
def encrypt_core (key iv : List Nat) (block_size : Nat) (separate_iv_key : Bool)
    (plaintext : List Nat) : EncArtifacts :=
  let body := chunkedXorStream (ksModel key iv) block_size 0 plaintext
  if separate_iv_key then
    { container := body ++ sha1Model iv, ivFile := some iv }
  else
    { container := iv ++ body ++ sha1Model iv, ivFile := none }

/-! ## `decrypt_button_click` core (source lines 877-959) -/

/-- Failure modes of the decryption core, one per distinct error message or
raised exception in the source. -/
inductive DecErr where
  /-- "Encrypted file size must be higher then 36/20 bytes". -/
  | sizeTooSmall
  /-- "Invalid or corrupted key file": `.ivkey` file under 16 bytes. -/
  | invalidKeyFile
  /-- OSError raised by `file.seek(-20, os.SEEK_END)` on a file shorter than
  20 bytes, surfacing as "Unhandled Exception Error". -/
  | seekFail
  /-- "Invalid file. The IV key does not match the expected hash." -/
  | ivHashMismatch
  deriving DecidableEq

/-- I/O events of a decryption run, in the order the source performs them. -/
inductive Ev where
  /-- Execution of a container minimum-size check. -/
  | checkSize
  /-- A read of bytes from the container file. -/
  | readC
  /-- A read of bytes from the external `.ivkey` file. -/
  | readK
  /-- The loop writing decrypted plaintext chunks to the output file. -/
  | writeP
  deriving DecidableEq

instance {ε α : Type} [DecidableEq ε] [DecidableEq α] : DecidableEq (Except ε α) := fun x y =>
  match x, y with
  | Except.ok a, Except.ok b =>
      if h : a = b then isTrue (by rw [h]) else isFalse (fun hc => by cases hc; exact h rfl)
  | Except.error a, Except.error b =>
      if h : a = b then isTrue (by rw [h]) else isFalse (fun hc => by cases hc; exact h rfl)
  | Except.ok _, Except.error _ => isFalse (fun hc => by cases hc)
  | Except.error _, Except.ok _ => isFalse (fun hc => by cases hc)

/-- Result of a decryption run: the events performed and the outcome. -/
structure DecOut where
  events : List Ev
  result : Except DecErr (List Nat)
  deriving DecidableEq

/-- Byte-level core of `decrypt_button_click`, from the IV location step to
the chunked decryption loop.  `separate_iv_key = none` is the inline-IV mode;
`some ivkey` carries the external `.ivkey` file's bytes.  The control flow —
in particular the placement of each size check relative to the reads — is
transcribed from the source. -/
def decrypt_core (separate_iv_key : Option (List Nat)) (container : List Nat)
    (key : List Nat) (block_size : Nat) : DecOut :=
  match separate_iv_key with
  | none =>
      if container.length < 36 then
        { events := [Ev.checkSize], result := Except.error DecErr.sizeTooSmall }
      else
        let iv := container.take 16
        let expected_iv_hash := container.drop (container.length - 20)
        if sha1Model iv ≠ expected_iv_hash then
          { events := [Ev.checkSize, Ev.readC], result := Except.error DecErr.ivHashMismatch }
        else
          let data := container.drop 16
          let encrypted_data := data.take (data.length - 20)
          { events := [Ev.checkSize, Ev.readC, Ev.readC, Ev.writeP],
            result := Except.ok (chunkedXorStream (ksModel key iv) block_size 0 encrypted_data) }
  | some ivkey =>
      if ivkey.length < 16 then
        { events := [], result := Except.error DecErr.invalidKeyFile }
      else
        let iv := ivkey.take 16
        if container.length < 20 then
          { events := [Ev.readK], result := Except.error DecErr.seekFail }
        else
          let expected_iv_hash := container.drop (container.length - 20)
          if sha1Model iv ≠ expected_iv_hash then
            { events := [Ev.readK, Ev.readC], result := Except.error DecErr.ivHashMismatch }
          else if container.length < 20 then
            { events := [Ev.readK, Ev.readC, Ev.checkSize],
              result := Except.error DecErr.sizeTooSmall }
          else
            let encrypted_data := container.take (container.length - 20)
            { events := [Ev.readK, Ev.readC, Ev.checkSize, Ev.readC, Ev.writeP],
              result := Except.ok (chunkedXorStream (ksModel key iv) block_size 0 encrypted_data) }

/-! ## Recovery key encoding (source lines 790-794 and 849-864) -/

/-- Lowercase hex digit of a value below 16, as produced by `hexdigest()`. -/
def hexChar (n : Nat) : Char :=
  if n < 10 then Char.ofNat (48 + n) else Char.ofNat (87 + n)

/-- Value of a lowercase hex digit, as consumed by `bytes.fromhex`. -/
def hexVal (c : Char) : Nat :=
  if c.toNat ≤ 57 then c.toNat - 48 else c.toNat - 87

/-- Hex encoding of a byte list, two lowercase digits per byte. -/
def hexEncodeBytes : List Nat → List Char
  | [] => []
  | b :: rest => hexChar (b / 16) :: hexChar (b % 16) :: hexEncodeBytes rest

/-- `bytes.fromhex`: decode hex digit pairs back into bytes. -/
def hexDecodePairs : List Char → List Nat
  | c1 :: c2 :: rest => (16 * hexVal c1 + hexVal c2) :: hexDecodePairs rest
  | _ => []

/-- Text written to the `.rkey` file at encrypt time:
`hashlib.sha256(password.encode()).hexdigest()`. -/
def recoveryKeyText (password : String) : List Char :=
  hexEncodeBytes (sha256Model password)

/-- Key resolution from a recovery key file at decrypt time:
`password = file.read(64)` then `key = bytes.fromhex(password)`. -/
def keyFromRecoveryText (text : List Char) : List Nat :=
  hexDecodePairs (text.take 64)

/-! ## Output path computation of `decrypt_button_click`
(source lines 913-930), over a POSIX path model -/

/-- Whether a POSIX path is absolute (starts with a slash). -/
def pyIsAbs (p : String) : Bool := p.data.take 1 == ['/']

/-- Whether the string ends with the given suffix. -/
def strEndsWith (p suffix : String) : Bool := suffix.data.isSuffixOf p.data

/-- Python `os.path.join` for two components (POSIX): an absolute second
component discards the first. -/
def pyJoin (a b : String) : String :=
  if pyIsAbs b then b
  else if strEndsWith a "/" || a == "" then a ++ b
  else a ++ "/" ++ b

/-- Python `os.path.basename` (POSIX): the part after the last slash. -/
def pyBasename (p : String) : String :=
  match (p.splitOn "/").getLast? with
  | some s => s
  | none => p

/-- Root part of Python `os.path.splitext` on a plain file name: cut at the
last dot that has some non-dot character before it. -/
def pySplitextRoot (name : String) : String :=
  let cs := name.data
  let dotIdxs := (List.range cs.length).filter
    (fun i => cs.getD i ' ' == '.' && (List.range i).any (fun j => cs.getD j ' ' != '.'))
  match dotIdxs.getLast? with
  | some i => String.mk (cs.take i)
  | none => name

/-- Name chosen for the decrypted output file (source lines 925-928): the
container's basename without its extension when the container ends in
`.pack`, otherwise the container path itself, unchanged. -/
def decrypted_file_name (file_to_decrypt : String) : String :=
  if strEndsWith file_to_decrypt ".pack" then
    pySplitextRoot (pyBasename file_to_decrypt)
  else file_to_decrypt

/-- Full path of the decrypted output file (source line 930):
`os.path.join(extraction_dir, decrypted_file_name)`. -/
def decrypted_file_path (extraction_dir file_to_decrypt : String) : String :=
  pyJoin extraction_dir (decrypted_file_name file_to_decrypt)

/-! ## ArchivePacker: `compress_directory` (source lines 519-565) and the
directory-encryption flow of `encrypt_button_click` (lines 719-805) -/

/-- Name of the sentinel file created in the source directory. -/
def sentinelName : String := "~encrypto_pack"

/-- Text the source writes into the sentinel file before packing. -/
def sentinelContent : String := "encrypto_packed_this_tar_file"

/-- A file seen by the `os.walk` over the source directory: its path, its
content, and whether `compressed_file.add` succeeds on it. -/
structure DirFile where
  path : String
  content : String
  readable : Bool
  deriving DecidableEq

/-- Observable outcome of `compress_directory`. -/
structure CompressResult where
  /-- `(arcname, content)` entries added to the tar archive. -/
  entries : List (String × String)
  /-- Return value: paths successfully added. -/
  compressed_files : List String
  /-- Paths whose add raised, collected non-fatally. -/
  failed_list : List String
  /-- Whether the archive file still exists when the function returns
  (it is removed when no file was packed). -/
  archiveKept : Bool
  /-- Whether the sentinel file still exists in the source directory when
  the function returns. -/
  sentinelInSourceDir : Bool
  deriving DecidableEq

/-- Model of `compress_directory`: the sentinel is written into the source
directory (so the walk sees it, with success flag `sentinelOk`), every
readable file is added under its relative path, failures are collected, the
sentinel is removed from the source directory, and the archive is removed
when `compressed_files` ends up empty.  The walk input `files` already
excludes the program's own binary and the archive path, which the source
skips. -/
def compress_directory (files : List DirFile) (sentinelOk : Bool) : CompressResult :=
  let walk := files ++ [{ path := sentinelName, content := sentinelContent,
                          readable := sentinelOk }]
  let ok := walk.filter (fun f => f.readable)
  let bad := walk.filter (fun f => !f.readable)
  { entries := ok.map (fun f => (f.path, f.content))
    compressed_files := ok.map (fun f => f.path)
    failed_list := bad.map (fun f => f.path)
    archiveKept := !(ok.map (fun f => f.path)).isEmpty
    sentinelInSourceDir := false }

/-- Modelled from the spec: the tar serialization of the packed archive —
`tarfile` is external library code.  Only its byte content as a function of
the entries matters here. -/
def tarBytes (entries : List (String × String)) : List Nat :=
  (entries.map (fun e => (e.1.data ++ e.2.data).map (fun c => c.toNat % 256))).flatten

/-- Error raised in the directory-encryption flow. -/
inductive EncErr where
  /-- `FileNotFoundError` from `os.path.getsize(file_to_encrypt)` after the
  empty archive was deleted, caught as "Unhandled Exception Error". -/
  | fileNotFound
  deriving DecidableEq

/-- Observable outcome of encrypting a directory. -/
structure EncOutcome where
  result : Except EncErr Unit
  /-- Bytes of the output container file created by `open(..., "wb")`. -/
  outputBytes : List Nat
  /-- Whether the temporary archive still exists at the end. -/
  archivePresent : Bool
  deriving DecidableEq

/-- Directory branch of `encrypt_button_click`: pack the directory, then open
the output container and encrypt the archive.  When zero files were packed
the archive was already deleted by `compress_directory`, and the very first
statement inside the output `with`-block — `os.path.getsize(file_to_encrypt)`
— raises `FileNotFoundError` before any byte (even the IV) is written, so
the job aborts leaving a zero-byte output file. -/
def encrypt_dir_job (files : List DirFile) (sentinelOk : Bool)
    (key iv : List Nat) (block_size : Nat) (separate_iv_key : Bool) : EncOutcome :=
  let c := compress_directory files sentinelOk
  if c.archiveKept = false then
    { result := Except.error EncErr.fileNotFound
      outputBytes := []
      archivePresent := false }
  else
    let pt := tarBytes c.entries
    let art := encrypt_core key iv block_size separate_iv_key pt
    { result := Except.ok ()
      outputBytes := art.container
      archivePresent := false }

/-! ## Properties of the stream cipher -/

theorem xorStream_length (ks : Nat → Nat) (off : Nat) (l : List Nat) :
    (xorStream ks off l).length = l.length := by
  induction l generalizing off with
  | nil => rfl
  | cons b rest ih => simp [xorStream, ih]

theorem xorStream_append (ks : Nat → Nat) (off : Nat) (a b : List Nat) :
    xorStream ks off (a ++ b) = xorStream ks off a ++ xorStream ks (off + a.length) b := by
  induction a generalizing off with
  | nil => simp [xorStream]
  | cons x rest ih =>
      have h1 : (x :: rest) ++ b = x :: (rest ++ b) := rfl
      rw [h1]
      show (x ^^^ ks off) :: xorStream ks (off + 1) (rest ++ b) =
        ((x ^^^ ks off) :: xorStream ks (off + 1) rest) ++
          xorStream ks (off + (x :: rest).length) b
      rw [ih (off + 1)]
      have h2 : off + 1 + rest.length = off + (x :: rest).length := by
        simp only [List.length_cons]
        omega
      rw [h2]
      rfl

theorem xorStream_involutive (ks : Nat → Nat) (off : Nat) (l : List Nat) :
    xorStream ks off (xorStream ks off l) = l := by
  induction l generalizing off with
  | nil => rfl
  | cons b rest ih =>
      simp [xorStream, ih, Nat.xor_assoc]

/-- Chunk boundaries do not alter the ciphertext: the chunked loop with any
positive block size equals single-pass application of the stream cipher. -/
theorem chunkedXorStream_eq (ks : Nat → Nat) (bs : Nat) (hbs : bs ≠ 0) :
    ∀ n (l : List Nat), l.length ≤ n → ∀ off,
      chunkedXorStream ks bs off l = xorStream ks off l := by
  intro n
  induction n with
  | zero =>
      intro l hl off
      have hn : l = [] := List.length_eq_zero.mp (Nat.le_zero.mp hl)
      subst hn
      rw [chunkedXorStream]
      simp [xorStream]
  | succ m ih =>
      intro l hl off
      rw [chunkedXorStream]
      by_cases hnil : l = []
      · simp [hnil, xorStream]
      · simp only [if_neg hnil, if_neg hbs]
        by_cases hsmall : l.length ≤ bs
        · have htake : l.take bs = l := List.take_of_length_le hsmall
          have hdrop : l.drop bs = [] := List.drop_eq_nil_of_le hsmall
          rw [htake, hdrop, chunkedXorStream]
          simp
        · push_neg at hsmall
          have hdlen : (l.drop bs).length ≤ m := by
            simp only [List.length_drop]
            omega
          rw [ih (l.drop bs) hdlen (off + bs)]
          have htlen : (l.take bs).length = bs := by
            simp [List.length_take]
            omega
          calc xorStream ks off (l.take bs) ++ xorStream ks (off + bs) (l.drop bs)
              = xorStream ks off (l.take bs) ++
                  xorStream ks (off + (l.take bs).length) (l.drop bs) := by rw [htlen]
            _ = xorStream ks off (l.take bs ++ l.drop bs) := (xorStream_append ks off _ _).symm
            _ = xorStream ks off l := by rw [List.take_append_drop]

theorem chunkedXorStream_length (ks : Nat → Nat) (bs off : Nat) (l : List Nat)
    (hbs : bs ≠ 0) : (chunkedXorStream ks bs off l).length = l.length := by
  rw [chunkedXorStream_eq ks bs hbs l.length l (le_refl _) off, xorStream_length]

/-! ## Helper lemmas: bytes, modelled digests, hex codec, container parsing -/

theorem xorStream_getD (ks : Nat → Nat) (off : Nat) (l : List Nat) (i : Nat)
    (h : i < l.length) :
    (xorStream ks off l).getD i 0 = l.getD i 0 ^^^ ks (off + i) := by
  induction l generalizing off i with
  | nil => simp at h
  | cons b rest ih =>
      cases i with
      | zero => simp [xorStream]
      | succ k =>
          have hk : k < rest.length := by
            simp only [List.length_cons] at h
            omega
          have hih := ih (off + 1) k hk
          simp only [xorStream, List.getD_cons_succ]
          have harg : off + 1 + k = off + (k + 1) := by omega
          rw [← harg]
          exact hih

theorem getD_lt_256 {l : List Nat} (h : isBytes l) (i : Nat) (hi : i < l.length) :
    l.getD i 0 < 256 := by
  induction l generalizing i with
  | nil => simp at hi
  | cons b rest ih =>
      cases i with
      | zero => simpa using h b (by simp)
      | succ k =>
          simp only [List.getD_cons_succ]
          exact ih (fun x hx => h x (by simp [hx])) k (by simp only [List.length_cons] at hi; omega)

theorem getD_set_self {l : List Nat} {i : Nat} (hi : i < l.length) (v : Nat) :
    (l.set i v).getD i 0 = v := by
  induction l generalizing i with
  | nil => simp at hi
  | cons b rest ih =>
      cases i with
      | zero => rfl
      | succ k =>
          simp only [List.set_cons_succ, List.getD_cons_succ]
          exact ih (by simp only [List.length_cons] at hi; omega)

theorem xor_eq_self_iff {a x : Nat} : a ^^^ x = a ↔ x = 0 := by
  constructor
  · intro h
    have h2 : a ^^^ (a ^^^ x) = a ^^^ a := congrArg (a ^^^ ·) h
    rw [← Nat.xor_assoc, Nat.xor_self, Nat.zero_xor] at h2
    exact h2
  · rintro rfl
    exact Nat.xor_zero a

theorem xor_eq_zero_iff {a b : Nat} : a ^^^ b = 0 ↔ a = b := by
  constructor
  · intro h
    have hb : b = (a ^^^ a) ^^^ b := by rw [Nat.xor_self, Nat.zero_xor]
    rw [Nat.xor_assoc, h, Nat.xor_zero] at hb
    exact hb.symm
  · rintro rfl
    exact Nat.xor_self a

theorem flipBit_length (l : List Nat) (i j : Nat) : (flipBit l i j).length = l.length := by
  simp [flipBit]

theorem flipBit_isBytes {l : List Nat} (h : isBytes l) {i j : Nat} (hj : j < 8) :
    isBytes (flipBit l i j) := by
  intro b hb
  rcases List.mem_or_eq_of_mem_set hb with h1 | h1
  · exact h b h1
  · subst h1
    by_cases hi : i < l.length
    · have hb1 : l.getD i 0 < 256 := getD_lt_256 h i hi
      have hb2 : (2 : Nat) ^ j < 2 ^ 8 := Nat.pow_lt_pow_right (by omega) hj
      exact Nat.xor_lt_two_pow (n := 8) hb1 hb2
    · have hz : l.getD i 0 = 0 := by
        rw [List.getD_eq_getElem?_getD, List.getElem?_eq_none (by omega)]
        rfl
      rw [hz, Nat.zero_xor]
      calc (2 : Nat) ^ j < 2 ^ 8 := Nat.pow_lt_pow_right (by omega) hj
        _ = 256 := by norm_num

theorem flipBit_ne {l : List Nat} {i : Nat} (j : Nat) (hi : i < l.length) :
    flipBit l i j ≠ l := by
  intro h
  have hg : (flipBit l i j).getD i 0 = l.getD i 0 := by rw [h]
  rw [flipBit, getD_set_self hi] at hg
  have h0 : (2 : Nat) ^ j = 0 := by
    have := xor_eq_self_iff.mp hg
    exact this
  exact absurd h0 (Nat.pos_iff_ne_zero.mp (Nat.two_pow_pos j))

theorem map_mod_eq_self {l : List Nat} (h : isBytes l) : l.map (· % 256) = l := by
  induction l with
  | nil => rfl
  | cons b rest ih =>
      have hb : b < 256 := h b (by simp)
      have hr : isBytes rest := fun x hx => h x (by simp [hx])
      simp [Nat.mod_eq_of_lt hb, ih hr]

theorem sha1Model_length (l : List Nat) : (sha1Model l).length = l.length + 4 := by
  simp [sha1Model]

theorem sha1Model_inj {a b : List Nat} (ha : isBytes a) (hb : isBytes b)
    (hl : a.length = b.length) (h : sha1Model a = sha1Model b) : a = b := by
  unfold sha1Model at h
  have h1 : a.map (· % 256) = b.map (· % 256) :=
    List.append_inj_left h (by simp [hl])
  rwa [map_mod_eq_self ha, map_mod_eq_self hb] at h1

theorem sha256Model_length (p : String) : (sha256Model p).length = 32 := by
  simp [sha256Model]

theorem sha256Model_isBytes (p : String) : isBytes (sha256Model p) := by
  intro b hb
  simp only [sha256Model, List.mem_map, List.mem_range] at hb
  obtain ⟨i, _, rfl⟩ := hb
  exact Nat.mod_lt _ (by omega)

theorem hexVal_hexChar {n : Nat} (h : n < 16) : hexVal (hexChar n) = n := by
  interval_cases n <;> rfl

theorem hexEncodeBytes_length (l : List Nat) : (hexEncodeBytes l).length = 2 * l.length := by
  induction l with
  | nil => rfl
  | cons b rest ih =>
      simp only [hexEncodeBytes, List.length_cons, ih]
      omega

theorem hexDecode_hexEncode {l : List Nat} (h : isBytes l) :
    hexDecodePairs (hexEncodeBytes l) = l := by
  induction l with
  | nil => rfl
  | cons b rest ih =>
      have hb : b < 256 := h b (by simp)
      have hr : isBytes rest := fun x hx => h x (by simp [hx])
      have h1 : b / 16 < 16 := by omega
      have h2 : b % 16 < 16 := by omega
      simp only [hexEncodeBytes, hexDecodePairs, hexVal_hexChar h1, hexVal_hexChar h2, ih hr]
      rw [Nat.div_add_mod]

theorem keyFromRecoveryText_eq (password : String) :
    keyFromRecoveryText (recoveryKeyText password) = sha256Model password := by
  unfold keyFromRecoveryText recoveryKeyText
  rw [List.take_of_length_le
    (by rw [hexEncodeBytes_length, sha256Model_length])]
  exact hexDecode_hexEncode (sha256Model_isBytes password)

theorem decrypt_core_inline_eval (iv body t key : List Nat) (bs : Nat)
    (hiv : iv.length = 16) (ht : t.length = 20) :
    decrypt_core none (iv ++ body ++ t) key bs =
      if sha1Model iv = t then
        { events := [Ev.checkSize, Ev.readC, Ev.readC, Ev.writeP],
          result := Except.ok (chunkedXorStream (ksModel key iv) bs 0 body) }
      else
        { events := [Ev.checkSize, Ev.readC],
          result := Except.error DecErr.ivHashMismatch } := by
  have hlen : (iv ++ body ++ t).length = body.length + 36 := by
    simp [List.length_append, hiv, ht]
    omega
  have htake : (iv ++ body ++ t).take 16 = iv := by
    rw [List.append_assoc]
    exact List.take_left' hiv
  have hdrop20 : (iv ++ body ++ t).drop ((iv ++ body ++ t).length - 20) = t := by
    have h20 : (iv ++ body ++ t).length - 20 = (iv ++ body).length := by
      rw [hlen, List.length_append, hiv]
      omega
    rw [h20]
    exact List.drop_left _ _
  have hdrop16 : (iv ++ body ++ t).drop 16 = body ++ t := by
    rw [List.append_assoc]
    exact List.drop_left' hiv
  have hencdata : (body ++ t).take ((body ++ t).length - 20) = body := by
    have hb : (body ++ t).length - 20 = body.length := by
      rw [List.length_append, ht]
      omega
    rw [hb]
    exact List.take_left _ _
  simp only [decrypt_core]
  rw [if_neg (by rw [hlen]; omega : ¬ (iv ++ body ++ t).length < 36)]
  simp only [htake, hdrop20, hdrop16, hencdata, ite_not]

theorem decrypt_core_external_eval (ivkey body t key : List Nat) (bs : Nat)
    (hk : ivkey.length = 16) (ht : t.length = 20) :
    decrypt_core (some ivkey) (body ++ t) key bs =
      if sha1Model ivkey = t then
        { events := [Ev.readK, Ev.readC, Ev.checkSize, Ev.readC, Ev.writeP],
          result := Except.ok (chunkedXorStream (ksModel key ivkey) bs 0 body) }
      else
        { events := [Ev.readK, Ev.readC],
          result := Except.error DecErr.ivHashMismatch } := by
  have hlen : (body ++ t).length = body.length + 20 := by
    rw [List.length_append, ht]
  have htake : ivkey.take 16 = ivkey := List.take_of_length_le (by omega)
  have hdrop20 : (body ++ t).drop ((body ++ t).length - 20) = t := by
    have h20 : (body ++ t).length - 20 = body.length := by omega
    rw [h20]
    exact List.drop_left _ _
  have hencdata : (body ++ t).take ((body ++ t).length - 20) = body := by
    have hb : (body ++ t).length - 20 = body.length := by omega
    rw [hb]
    exact List.take_left _ _
  simp only [decrypt_core]
  rw [if_neg (by omega : ¬ ivkey.length < 16)]
  rw [if_neg (by omega : ¬ (body ++ t).length < 20)]
  simp only [htake, hdrop20, hencdata, ite_not]
  rw [if_neg (by omega : ¬ (body ++ t).length < 20)]

/-! ## Claim theorems -/

/-- C1: Round-trip for single files: for any file `F` and any non-empty
password `P`, encrypting `F` with `P` (inline-IV mode, any positive chunk
size) and then decrypting the resulting container with the same password `P`
yields output that byte-equals `F` — chunk boundaries do not alter the
ciphertext, so the decrypt-time chunk size may differ. -/
theorem C1_round_trip (plaintext iv : List Nat) (password : String) (bsE bsD : Nat)
    (hiv : iv.length = 16) (hP : password ≠ "") (hE : 0 < bsE) (hD : 0 < bsD) :
    (decrypt_core none
        ((encrypt_core (sha256Model password) iv bsE false plaintext).container)
        (sha256Model password) bsD).result = Except.ok plaintext := by
  have hbsE : bsE ≠ 0 := by omega
  have hbsD : bsD ≠ 0 := by omega
  have hcont : (encrypt_core (sha256Model password) iv bsE false plaintext).container
      = iv ++ chunkedXorStream (ksModel (sha256Model password) iv) bsE 0 plaintext
          ++ sha1Model iv := by
    simp [encrypt_core]
  rw [hcont]
  rw [decrypt_core_inline_eval _ _ _ _ _ hiv (by rw [sha1Model_length, hiv])]
  rw [if_pos rfl]
  show Except.ok (chunkedXorStream (ksModel (sha256Model password) iv) bsD 0
      (chunkedXorStream (ksModel (sha256Model password) iv) bsE 0 plaintext))
    = Except.ok plaintext
  rw [chunkedXorStream_eq _ _ hbsE _ plaintext (le_refl _) 0,
      chunkedXorStream_eq _ _ hbsD _ _ (le_refl _) 0,
      xorStream_involutive]

/-- C1 witness: the round trip at a concrete file, password and chunk sizes. -/
theorem C1_round_trip_witness :
    (List.replicate 16 0 : List Nat).length = 16 ∧ ("pw" : String) ≠ "" ∧ 0 < 1 ∧ 0 < 2 ∧
    (decrypt_core none
        ((encrypt_core (sha256Model "pw") (List.replicate 16 0) 1 false [1, 2, 3]).container)
        (sha256Model "pw") 2).result = Except.ok [1, 2, 3] :=
  ⟨by decide, by decide, by decide, by decide,
   C1_round_trip [1, 2, 3] (List.replicate 16 0) "pw" 1 2
     (by decide) (by decide) (by decide) (by decide)⟩

/-- C8: Recovery-key equivalence: the recovery key file written at encrypt
time contains the 64-character hex encoding of SHA-256 of the password, and
decrypting any container with the key obtained by hex-decoding its first 64
characters behaves identically to decrypting with the password itself. -/
theorem C8_recovery_key_equivalence (password : String) :
    (recoveryKeyText password).length = 64 ∧
    keyFromRecoveryText (recoveryKeyText password) = sha256Model password ∧
    ∀ (separate_iv_key : Option (List Nat)) (container : List Nat) (bs : Nat),
      decrypt_core separate_iv_key container
          (keyFromRecoveryText (recoveryKeyText password)) bs =
        decrypt_core separate_iv_key container (sha256Model password) bs := by
  refine ⟨?_, keyFromRecoveryText_eq password, ?_⟩
  · rw [recoveryKeyText, hexEncodeBytes_length, sha256Model_length]
  · intro ivk c bs
    rw [keyFromRecoveryText_eq]

/-- C9: ChunkSizeAdvisor is a deterministic total function of available
memory: every output is one of the seven documented sizes, the documented
GiB tiers hold, the fallback on query failure is 524288, and the output is
non-decreasing in the memory input. -/
theorem tier_ge33 (g : Nat) (h : 33 ≤ g) : get_optimal_block_size_tier g = 3145728 := by
  unfold get_optimal_block_size_tier
  split_ifs <;> omega

theorem tier_le1 (g : Nat) (h : g ≤ 1) : get_optimal_block_size_tier g = 65536 := by
  unfold get_optimal_block_size_tier
  rw [if_pos h]

theorem tier_eq2 (g : Nat) (h : g = 2) : get_optimal_block_size_tier g = 131072 := by
  unfold get_optimal_block_size_tier
  split_ifs <;> omega

theorem tier_eq3 (g : Nat) (h : g = 3) : get_optimal_block_size_tier g = 262144 := by
  unfold get_optimal_block_size_tier
  split_ifs <;> omega

theorem tier_4_to_6 (g : Nat) (h1 : 4 ≤ g) (h2 : g ≤ 6) :
    get_optimal_block_size_tier g = 524288 := by
  unfold get_optimal_block_size_tier
  split_ifs <;> omega

theorem tier_7_to_12 (g : Nat) (h1 : 7 ≤ g) (h2 : g ≤ 12) :
    get_optimal_block_size_tier g = 1048576 := by
  unfold get_optimal_block_size_tier
  split_ifs <;> omega

theorem tier_13_to_24 (g : Nat) (h1 : 13 ≤ g) (h2 : g ≤ 24) :
    get_optimal_block_size_tier g = 1572864 := by
  unfold get_optimal_block_size_tier
  split_ifs <;> omega

theorem tier_ge32 (g : Nat) (h : 32 ≤ g) : get_optimal_block_size_tier g = 3145728 := by
  unfold get_optimal_block_size_tier
  split_ifs <;> omega

theorem tier_bounded_mono : ∀ g, g < 34 → ∀ g', g' < 34 → g ≤ g' →
    get_optimal_block_size_tier g ≤ get_optimal_block_size_tier g' := by decide

theorem tier_le (g : Nat) : get_optimal_block_size_tier g ≤ 3145728 := by
  by_cases h : g < 34
  · exact (by decide : ∀ x, x < 34 → get_optimal_block_size_tier x ≤ 3145728) g h
  · rw [tier_ge33 g (by omega)]

theorem tier_mono (g g' : Nat) (h : g ≤ g') :
    get_optimal_block_size_tier g ≤ get_optimal_block_size_tier g' := by
  by_cases h' : g' < 34
  · exact tier_bounded_mono g (by omega) g' h' h
  · rw [tier_ge33 g' (by omega)]
    exact tier_le g

theorem tier_mem (g : Nat) : get_optimal_block_size_tier g ∈
    [65536, 131072, 262144, 524288, 1048576, 1572864, 3145728] := by
  by_cases h : g < 34
  · exact (by decide : ∀ x, x < 34 → get_optimal_block_size_tier x ∈
      [65536, 131072, 262144, 524288, 1048576, 1572864, 3145728]) g h
  · rw [tier_ge33 g (by omega)]
    simp

theorem C9_chunk_size_advisor :
    (∀ q, get_optimal_block_size q ∈
        [65536, 131072, 262144, 524288, 1048576, 1572864, 3145728]) ∧
    get_optimal_block_size none = 524288 ∧
    (∀ m, m / 1024 ^ 3 ≤ 1 → get_optimal_block_size (some m) = 65536) ∧
    (∀ m, m / 1024 ^ 3 = 2 → get_optimal_block_size (some m) = 131072) ∧
    (∀ m, m / 1024 ^ 3 = 3 → get_optimal_block_size (some m) = 262144) ∧
    (∀ m, 4 ≤ m / 1024 ^ 3 → m / 1024 ^ 3 ≤ 6 →
        get_optimal_block_size (some m) = 524288) ∧
    (∀ m, 7 ≤ m / 1024 ^ 3 → m / 1024 ^ 3 ≤ 12 →
        get_optimal_block_size (some m) = 1048576) ∧
    (∀ m, 13 ≤ m / 1024 ^ 3 → m / 1024 ^ 3 ≤ 24 →
        get_optimal_block_size (some m) = 1572864) ∧
    (∀ m, 32 ≤ m / 1024 ^ 3 → get_optimal_block_size (some m) = 3145728) ∧
    (∀ m m', m ≤ m' →
        get_optimal_block_size (some m) ≤ get_optimal_block_size (some m')) := by
  refine ⟨?_, rfl, ?_, ?_, ?_, ?_, ?_, ?_, ?_, ?_⟩
  · intro q
    cases q with
    | none => simp [get_optimal_block_size]
    | some m => exact tier_mem _
  · intro m h
    exact tier_le1 _ h
  · intro m h
    exact tier_eq2 _ h
  · intro m h
    exact tier_eq3 _ h
  · intro m h1 h2
    exact tier_4_to_6 _ h1 h2
  · intro m h1 h2
    exact tier_7_to_12 _ h1 h2
  · intro m h1 h2
    exact tier_13_to_24 _ h1 h2
  · intro m h
    exact tier_ge32 _ h
  · intro m m' h
    exact tier_mono _ _ (Nat.div_le_div_right h)

/-- C9 witness: the documented tiers at 1 GiB, 8 GiB and 32 GiB. -/
theorem C9_chunk_size_advisor_witness :
    get_optimal_block_size (some (1024 ^ 3)) = 65536 ∧
    get_optimal_block_size (some (8 * 1024 ^ 3)) = 1048576 ∧
    get_optimal_block_size (some (32 * 1024 ^ 3)) = 3145728 :=
  ⟨C9_chunk_size_advisor.2.2.1 _ (by decide),
   C9_chunk_size_advisor.2.2.2.2.2.2.1 _ (by decide) (by decide),
   C9_chunk_size_advisor.2.2.2.2.2.2.2.2.1 _ (by decide)⟩

/-- C10: Encryption is length-preserving on the ciphertext body: the
concatenation of encrypted chunks has exactly the plaintext's length, the
inline-IV container totals `N + 36` bytes, the external-IV container totals
`N + 20` bytes, and the 16 IV bytes are held in the side file instead. -/
theorem C10_length (key iv plaintext : List Nat) (bs : Nat)
    (hiv : iv.length = 16) (hbs : 0 < bs) :
    (chunkedXorStream (ksModel key iv) bs 0 plaintext).length = plaintext.length ∧
    (encrypt_core key iv bs false plaintext).container.length = plaintext.length + 36 ∧
    (encrypt_core key iv bs true plaintext).container.length = plaintext.length + 20 ∧
    (encrypt_core key iv bs true plaintext).ivFile = some iv := by
  have hb : bs ≠ 0 := by omega
  have hlen := chunkedXorStream_length (ksModel key iv) bs 0 plaintext hb
  refine ⟨hlen, ?_, ?_, ?_⟩
  · show (iv ++ chunkedXorStream (ksModel key iv) bs 0 plaintext ++ sha1Model iv).length
        = plaintext.length + 36
    rw [List.length_append, List.length_append, hlen, sha1Model_length, hiv]
    omega
  · show (chunkedXorStream (ksModel key iv) bs 0 plaintext ++ sha1Model iv).length
        = plaintext.length + 20
    rw [List.length_append, hlen, sha1Model_length, hiv]
  · rfl

/-- C10 witness: the container sizes at a concrete plaintext and IV. -/
theorem C10_length_witness :
    (List.replicate 16 0 : List Nat).length = 16 ∧ 0 < 4 ∧
    ((chunkedXorStream (ksModel [] (List.replicate 16 0)) 4 0 [7, 7]).length
        = ([7, 7] : List Nat).length ∧
      (encrypt_core [] (List.replicate 16 0) 4 false [7, 7]).container.length
        = ([7, 7] : List Nat).length + 36 ∧
      (encrypt_core [] (List.replicate 16 0) 4 true [7, 7]).container.length
        = ([7, 7] : List Nat).length + 20 ∧
      (encrypt_core [] (List.replicate 16 0) 4 true [7, 7]).ivFile
        = some (List.replicate 16 0)) :=
  ⟨by decide, by decide, C10_length [] (List.replicate 16 0) [7, 7] 4 (by decide) (by decide)⟩

/-- C2: IV integrity is fail-closed: for every container (inline or external
IV), when the IV obtained at decrypt time differs from the IV whose SHA-1 is
the container's trailing 20 bytes, decryption fails with the integrity error
and no plaintext write event occurs; in particular flipping any bit of the
stored IV causes this failure. -/
theorem C2_iv_integrity (iv body key : List Nat) (bs : Nat)
    (hiv : iv.length = 16) (hB : isBytes iv) :
    (∀ ivS : List Nat, ivS.length = 16 → isBytes ivS → ivS ≠ iv →
      (decrypt_core none (ivS ++ body ++ sha1Model iv) key bs).result
          = Except.error DecErr.ivHashMismatch ∧
        Ev.writeP ∉ (decrypt_core none (ivS ++ body ++ sha1Model iv) key bs).events ∧
        (decrypt_core (some ivS) (body ++ sha1Model iv) key bs).result
          = Except.error DecErr.ivHashMismatch ∧
        Ev.writeP ∉ (decrypt_core (some ivS) (body ++ sha1Model iv) key bs).events) ∧
    (∀ i j, i < 16 → j < 8 →
      (decrypt_core none (flipBit iv i j ++ body ++ sha1Model iv) key bs).result
          = Except.error DecErr.ivHashMismatch ∧
        (decrypt_core (some (flipBit iv i j)) (body ++ sha1Model iv) key bs).result
          = Except.error DecErr.ivHashMismatch) := by
  have hsl : (sha1Model iv).length = 20 := by rw [sha1Model_length, hiv]
  have main : ∀ ivS : List Nat, ivS.length = 16 → isBytes ivS → ivS ≠ iv →
      (decrypt_core none (ivS ++ body ++ sha1Model iv) key bs).result
          = Except.error DecErr.ivHashMismatch ∧
        Ev.writeP ∉ (decrypt_core none (ivS ++ body ++ sha1Model iv) key bs).events ∧
        (decrypt_core (some ivS) (body ++ sha1Model iv) key bs).result
          = Except.error DecErr.ivHashMismatch ∧
        Ev.writeP ∉ (decrypt_core (some ivS) (body ++ sha1Model iv) key bs).events := by
    intro ivS hlen hBS hne
    have hh : sha1Model ivS ≠ sha1Model iv := fun hEq =>
      hne (sha1Model_inj hBS hB (by omega) hEq)
    rw [decrypt_core_inline_eval ivS body (sha1Model iv) key bs hlen hsl]
    rw [decrypt_core_external_eval ivS body (sha1Model iv) key bs hlen hsl]
    rw [if_neg hh, if_neg hh]
    exact ⟨rfl, by decide, rfl, by decide⟩
  refine ⟨main, ?_⟩
  intro i j hi hj
  have hne : flipBit iv i j ≠ iv := flipBit_ne j (by omega)
  have h := main (flipBit iv i j) (by rw [flipBit_length, hiv])
    (flipBit_isBytes hB hj) hne
  exact ⟨h.1, h.2.2.1⟩

/-- C2 witness: tampering the IV of a concrete container fails closed. -/
theorem C2_iv_integrity_witness :
    (List.replicate 16 0 : List Nat).length = 16 ∧ isBytes (List.replicate 16 0) ∧
    ((∀ ivS : List Nat, ivS.length = 16 → isBytes ivS → ivS ≠ List.replicate 16 0 →
      (decrypt_core none (ivS ++ [5] ++ sha1Model (List.replicate 16 0)) [] 1).result
          = Except.error DecErr.ivHashMismatch ∧
        Ev.writeP ∉ (decrypt_core none
          (ivS ++ [5] ++ sha1Model (List.replicate 16 0)) [] 1).events ∧
        (decrypt_core (some ivS) ([5] ++ sha1Model (List.replicate 16 0)) [] 1).result
          = Except.error DecErr.ivHashMismatch ∧
        Ev.writeP ∉ (decrypt_core (some ivS)
          ([5] ++ sha1Model (List.replicate 16 0)) [] 1).events) ∧
    (∀ i j, i < 16 → j < 8 →
      (decrypt_core none (flipBit (List.replicate 16 0) i j ++ [5]
          ++ sha1Model (List.replicate 16 0)) [] 1).result
          = Except.error DecErr.ivHashMismatch ∧
        (decrypt_core (some (flipBit (List.replicate 16 0) i j))
          ([5] ++ sha1Model (List.replicate 16 0)) [] 1).result
          = Except.error DecErr.ivHashMismatch)) :=
  ⟨by decide, by decide, C2_iv_integrity (List.replicate 16 0) [5] [] 1
    (by decide) (by decide)⟩

/-- C3: the code violates the never-overwrite claim: whenever the container
path is absolute and does not end in `.pack`, the decrypted output path
computed by `decrypt_button_click` equals the source container path itself
(Python's `os.path.join` discards the extraction directory before an
absolute second component), so opening it for writing truncates the
container being decrypted. -/
theorem C3_output_overwrites_container (extraction_dir file_to_decrypt : String)
    (habs : pyIsAbs file_to_decrypt = true)
    (hnp : strEndsWith file_to_decrypt ".pack" = false) :
    decrypted_file_path extraction_dir file_to_decrypt = file_to_decrypt := by
  have h1 : decrypted_file_name file_to_decrypt = file_to_decrypt := by
    unfold decrypted_file_name
    rw [if_neg (by rw [hnp]; exact Bool.false_ne_true)]
  unfold decrypted_file_path pyJoin
  rw [h1, if_pos habs]

/-- C3 witness: a concrete non-`.pack` absolute container path is chosen as
its own decryption output path. -/
theorem C3_output_overwrites_container_witness :
    (pyIsAbs "/home/user/data.bin" = true) ∧
    (strEndsWith "/home/user/data.bin" ".pack" = false) ∧
    decrypted_file_path "/home/user/data.bin_unpacked" "/home/user/data.bin"
      = "/home/user/data.bin" :=
  ⟨by decide, by decide,
   C3_output_overwrites_container "/home/user/data.bin_unpacked" "/home/user/data.bin"
     (by decide) (by decide)⟩

/-- C4: Wrong-password decryption is undetected: with an intact IV and IV
hash, decryption under any key completes with no integrity error — the
ciphertext body is never integrity-checked (any body decrypts to an `ok`
result) — and the output differs from the original plaintext whenever the
two derived keystreams differ somewhere below the plaintext length. -/
theorem C4_wrong_password (plaintext iv : List Nat) (P Pbad : String) (bsE bsD : Nat)
    (hiv : iv.length = 16) (hE : 0 < bsE) (hD : 0 < bsD) :
    (∀ body, ∃ out,
      (decrypt_core none (iv ++ body ++ sha1Model iv) (sha256Model Pbad) bsD).result
        = Except.ok out) ∧
    (decrypt_core none
        ((encrypt_core (sha256Model P) iv bsE false plaintext).container)
        (sha256Model Pbad) bsD).result
      = Except.ok (xorStream (ksModel (sha256Model Pbad) iv) 0
          (xorStream (ksModel (sha256Model P) iv) 0 plaintext)) ∧
    ((∃ i, i < plaintext.length ∧
        ksModel (sha256Model Pbad) iv i ≠ ksModel (sha256Model P) iv i) →
      xorStream (ksModel (sha256Model Pbad) iv) 0
          (xorStream (ksModel (sha256Model P) iv) 0 plaintext) ≠ plaintext) := by
  have hsl : (sha1Model iv).length = 20 := by rw [sha1Model_length, hiv]
  have hbsE : bsE ≠ 0 := by omega
  have hbsD : bsD ≠ 0 := by omega
  refine ⟨?_, ?_, ?_⟩
  · intro body
    rw [decrypt_core_inline_eval iv body (sha1Model iv) (sha256Model Pbad) bsD hiv hsl]
    rw [if_pos rfl]
    exact ⟨_, rfl⟩
  · have hcont : (encrypt_core (sha256Model P) iv bsE false plaintext).container
        = iv ++ chunkedXorStream (ksModel (sha256Model P) iv) bsE 0 plaintext
            ++ sha1Model iv := by
      simp [encrypt_core]
    rw [hcont]
    rw [decrypt_core_inline_eval _ _ _ _ _ hiv hsl]
    rw [if_pos rfl]
    show Except.ok (chunkedXorStream (ksModel (sha256Model Pbad) iv) bsD 0
        (chunkedXorStream (ksModel (sha256Model P) iv) bsE 0 plaintext)) = _
    rw [chunkedXorStream_eq _ _ hbsE _ plaintext (le_refl _) 0,
        chunkedXorStream_eq _ _ hbsD _ _ (le_refl _) 0]
  · rintro ⟨i, hilen, hkne⟩ hEq
    apply hkne
    have hlen1 : (xorStream (ksModel (sha256Model P) iv) 0 plaintext).length
        = plaintext.length := xorStream_length _ _ _
    have hg1 := xorStream_getD (ksModel (sha256Model Pbad) iv) 0
      (xorStream (ksModel (sha256Model P) iv) 0 plaintext) i (by rw [hlen1]; exact hilen)
    have hg2 := xorStream_getD (ksModel (sha256Model P) iv) 0 plaintext i hilen
    rw [hEq, hg2, Nat.zero_add] at hg1
    have h3 : plaintext.getD i 0
        ^^^ (ksModel (sha256Model P) iv i ^^^ ksModel (sha256Model Pbad) iv i)
        = plaintext.getD i 0 := by
      rw [← Nat.xor_assoc]
      exact hg1.symm
    have h4 := xor_eq_self_iff.mp h3
    exact (xor_eq_zero_iff.mp h4).symm

/-- C4 witness: a concrete wrong-password decryption that succeeds with no
integrity error and produces different plaintext. -/
theorem C4_wrong_password_witness :
    (List.replicate 16 0 : List Nat).length = 16 ∧ 0 < 2 ∧ 0 < 3 ∧
    (∃ i, i < ([9, 9, 9] : List Nat).length ∧
      ksModel (sha256Model "b") (List.replicate 16 0) i
        ≠ ksModel (sha256Model "a") (List.replicate 16 0) i) ∧
    xorStream (ksModel (sha256Model "b") (List.replicate 16 0)) 0
        (xorStream (ksModel (sha256Model "a") (List.replicate 16 0)) 0 [9, 9, 9])
      ≠ [9, 9, 9] :=
  ⟨by decide, by decide, by decide, ⟨0, by decide, by decide⟩,
   (C4_wrong_password [9, 9, 9] (List.replicate 16 0) "a" "b" 2 3
     (by decide) (by decide) (by decide)).2.2 ⟨0, by decide, by decide⟩⟩

/-- C5 counterexample: an external-IV container of 10 bytes is not rejected
by a size validation error before reads; the run fails with the generic seek
exception after the IV key file was already read. -/
theorem C5_counterexample :
    decrypt_core (some (List.replicate 16 0)) (List.replicate 10 0) [] 1
      = { events := [Ev.readK], result := Except.error DecErr.seekFail } ∧
    (decrypt_core (some (List.replicate 16 0)) (List.replicate 10 0) [] 1).result
      ≠ Except.error DecErr.sizeTooSmall := by
  refine ⟨by decide, by decide⟩

/-- C5 (amended): the 36-byte inline minimum is checked before any read and
an undersized inline container is rejected with the size validation error
with no read performed; in external-IV mode a container under 20 bytes
instead fails with the seek exception after the IV key file was read, and
the external 20-byte size validation error can never be produced. -/
theorem C5_amended :
    (∀ container key bs, container.length < 36 →
      decrypt_core none container key bs
        = { events := [Ev.checkSize], result := Except.error DecErr.sizeTooSmall }) ∧
    (∀ ivkey container key bs, 16 ≤ ivkey.length → container.length < 20 →
      decrypt_core (some ivkey) container key bs
        = { events := [Ev.readK], result := Except.error DecErr.seekFail }) ∧
    (∀ ivkey container key bs,
      (decrypt_core (some ivkey) container key bs).result
        ≠ Except.error DecErr.sizeTooSmall) := by
  refine ⟨?_, ?_, ?_⟩
  · intro c k bs h
    simp only [decrypt_core]
    rw [if_pos h]
  · intro ivk c k bs h1 h2
    simp only [decrypt_core]
    rw [if_neg (by omega), if_pos h2]
  · intro ivk c k bs
    simp only [decrypt_core]
    by_cases h1 : ivk.length < 16
    · rw [if_pos h1]
      simp
    · rw [if_neg h1]
      by_cases h2 : c.length < 20
      · rw [if_pos h2]
        simp
      · rw [if_neg h2]
        by_cases h3 : sha1Model (ivk.take 16) ≠ c.drop (c.length - 20)
        · rw [if_pos h3]
          simp
        · rw [if_neg h3, if_neg h2]
          simp

/-- C5 witness: the inline size check at a concrete undersized container. -/
theorem C5_amended_witness :
    ([] : List Nat).length < 36 ∧
    decrypt_core none [] [] 1
      = { events := [Ev.checkSize], result := Except.error DecErr.sizeTooSmall } :=
  ⟨by decide, C5_amended.1 [] [] 1 (by decide)⟩

/-- C6 counterexample: the sentinel file written into the source directory
is not zero-byte — it holds the 29-character marker text, and that entry is
what goes into the archive. -/
theorem C6_counterexample :
    sentinelContent.length = 29 ∧ sentinelContent.length ≠ 0 ∧
    (compress_directory [] true).entries = [(sentinelName, sentinelContent)] := by
  refine ⟨by decide, by decide, by decide⟩

/-- C6 (amended): the sentinel entry `~encrypto_pack` written into every
directory-origin packed archive holds the 29-byte marker text (not zero
bytes), and the sentinel file is deleted from the source directory
immediately after packing. -/
theorem C6_amended :
    sentinelContent.length = 29 ∧
    ∀ (files : List DirFile) (sentinelOk : Bool),
      (compress_directory files sentinelOk).sentinelInSourceDir = false ∧
      (sentinelOk = true →
        (sentinelName, sentinelContent) ∈ (compress_directory files sentinelOk).entries) := by
  refine ⟨by decide, ?_⟩
  intro files sOk
  refine ⟨rfl, ?_⟩
  intro hOk
  subst hOk
  simp only [compress_directory]
  have hmem : DirFile.mk sentinelName sentinelContent true
      ∈ (files ++ [DirFile.mk sentinelName sentinelContent true]).filter
          (fun f => f.readable) := by
    rw [List.mem_filter]
    exact ⟨List.mem_append_right _ (by simp), rfl⟩
  exact List.mem_map.mpr ⟨_, hmem, rfl⟩

/-- C6 witness: the amended property at a concrete directory. -/
theorem C6_amended_witness :
    (compress_directory [] true).sentinelInSourceDir = false ∧
    (sentinelName, sentinelContent) ∈ (compress_directory [] true).entries :=
  ⟨(C6_amended.2 [] true).1, (C6_amended.2 [] true).2 rfl⟩

/-- C7: if zero files are successfully packed when encrypting a directory,
the empty archive is deleted, the job fails with the file-not-found abort,
and the output container left on disk is empty (zero bytes) — in particular
it is not a valid container: decryption rejects it as undersized. -/
theorem C7_zero_files_packed (files : List DirFile) (sentinelOk : Bool)
    (key iv : List Nat) (bs : Nat) (separate_iv_key : Bool)
    (h : (compress_directory files sentinelOk).compressed_files = []) :
    (compress_directory files sentinelOk).archiveKept = false ∧
    (encrypt_dir_job files sentinelOk key iv bs separate_iv_key).result
      = Except.error EncErr.fileNotFound ∧
    (encrypt_dir_job files sentinelOk key iv bs separate_iv_key).outputBytes = [] ∧
    (encrypt_dir_job files sentinelOk key iv bs separate_iv_key).archivePresent = false ∧
    (∀ key2 bs2, (decrypt_core none
        (encrypt_dir_job files sentinelOk key iv bs separate_iv_key).outputBytes
        key2 bs2).result
      = Except.error DecErr.sizeTooSmall) := by
  have hak : (compress_directory files sentinelOk).archiveKept = false := by
    simp only [compress_directory] at h ⊢
    rw [h]
    rfl
  refine ⟨hak, ?_, ?_, ?_, ?_⟩
  · simp only [encrypt_dir_job]
    rw [if_pos hak]
  · simp only [encrypt_dir_job]
    rw [if_pos hak]
  · simp only [encrypt_dir_job]
    rw [if_pos hak]
  · intro key2 bs2
    simp only [encrypt_dir_job]
    rw [if_pos hak]
    simp only [decrypt_core]
    rw [if_pos (by decide)]

/-- C7 witness: a directory whose only file fails to pack. -/
theorem C7_zero_files_packed_witness :
    (compress_directory [{ path := "a", content := "x", readable := false }]
        false).compressed_files = [] ∧
    ((compress_directory [{ path := "a", content := "x", readable := false }]
        false).archiveKept = false ∧
      (encrypt_dir_job [{ path := "a", content := "x", readable := false }]
          false [] (List.replicate 16 0) 1 false).result
        = Except.error EncErr.fileNotFound ∧
      (encrypt_dir_job [{ path := "a", content := "x", readable := false }]
          false [] (List.replicate 16 0) 1 false).outputBytes = [] ∧
      (encrypt_dir_job [{ path := "a", content := "x", readable := false }]
          false [] (List.replicate 16 0) 1 false).archivePresent = false ∧
      (∀ key2 bs2, (decrypt_core none
          (encrypt_dir_job [{ path := "a", content := "x", readable := false }]
            false [] (List.replicate 16 0) 1 false).outputBytes key2 bs2).result
        = Except.error DecErr.sizeTooSmall)) :=
  ⟨by decide,
   C7_zero_files_packed [{ path := "a", content := "x", readable := false }]
     false [] (List.replicate 16 0) 1 false (by decide)⟩

end EncryptoPack
